import Mathlib

/-!
Shallow embedding of the tag-extraction and instance-filtering core of
`src/awswrapper/ec2wrapper.py` (functions `get_tags_from_instance`,
`list_instances_without_tag`, `are_any_filter_tags_on_instance`), together
with a model of the parts of Python's `re` module that this code calls
(`re.search`, which first compiles the pattern — and raises on a `None`
pattern or a malformed one — and then scans the subject string for a
substring match).

Python dictionaries are modelled as association lists; the tag map built by
`get_tags_from_instance` is represented with the most recent insertion at
the head, so that first-match lookup realises Python's last-write-wins
update semantics.  Exceptions are modelled with `Except String`.
-/

namespace AwsWrapper

/-- One element of an instance's `Tags` list: a `Key` and a `Value`, the
value possibly unset (Python `None`). -/
structure Tag where
  key : String
  value : Option String
deriving DecidableEq, Repr

/-- A raw EC2 instance record: the `InstanceId` field and the optional
`Tags` field (`none` when the record has no tags field at all). -/
structure Instance where
  instanceId : String
  tags : Option (List Tag)
deriving DecidableEq, Repr

/-- One reservation of a `describe_instances` response: its `Instances`. -/
structure Reservation where
  instances : List Instance
deriving DecidableEq, Repr

/-- The `ec2_instances` argument: a response with a `Reservations` list. -/
structure EC2Instances where
  reservations : List Reservation
deriving DecidableEq, Repr

/-- A summary record emitted by `list_instances_without_tag`:
`{'InstanceId': ..., 'Name': ...}`. -/
structure InstanceData where
  instanceId : String
  name : String
deriving DecidableEq, Repr

/-- The tag map built by `get_tags_from_instance`: a Python dict from tag
name to tag value, as an association list with the newest entry first. -/
abbrev TagMap := List (String × String)

/-- The `tags_filter` argument: a Python dict from tag name to regex
pattern; the stored pattern may itself be `None`. -/
abbrev FilterCriteria := List (String × Option String)

/-- Python `d.get(k, default)` on a string-valued dict. -/
def dictGetD (d : TagMap) (k default : String) : String :=
  match d.find? (fun kv => kv.1 == k) with
  | some kv => kv.2
  | none => default

/-- Python `k in d` on a string-valued dict. -/
def dictHasKey (d : TagMap) (k : String) : Bool :=
  (d.find? (fun kv => kv.1 == k)).isSome

/-- Python `tags_filter.get(filter_tag)` on the criteria dict: the stored
pattern when the key is present (that pattern may be `None`), and `None`
when the key is missing; the two `None`s coincide, hence the `join`. -/
def criteriaGet (d : FilterCriteria) (k : String) : Option String :=
  ((d.find? (fun kv => kv.1 == k)).map (fun kv => kv.2)).join

/-! ### Model of Python `re` (the subset this code can exercise)

Patterns are compiled to the abstract syntax `RE`; compilation fails —
as `re.compile` raises `re.error` — on malformed input such as an
unterminated group or a dangling quantifier.  Constructs outside the
modelled subset (character classes, `\d`-style escapes, `{m,n}` repeats)
are conservatively treated as compile failures as well.  Matching is
positional: `reMatchEnds re i s` lists the positions at which a match of
`re` beginning at position `i` of `s` can end, and `re.search` semantics
scan every start position. -/

/-- Abstract syntax of the modelled regex subset. -/
inductive RE where
  | eps
  | lit (c : Char)
  | anyc
  | startA
  | endA
  | seq (a b : RE)
  | alt (a b : RE)
  | star (a : RE)
deriving DecidableEq, Repr

/-- Size of a regex term, used to pick a sufficient matching fuel. -/
def RE.size : RE → Nat
  | .eps => 1
  | .lit _ => 1
  | .anyc => 1
  | .startA => 1
  | .endA => 1
  | .seq a b => a.size + b.size + 1
  | .alt a b => a.size + b.size + 1
  | .star a => a.size + 1

mutual

/-- Parse an alternation `cat ('|' cat)*`. -/
def parseAlt (fuel : Nat) (s : List Char) : Except String (RE × List Char) :=
  match fuel with
  | 0 => .error "pattern too deep"
  | fuel + 1 => do
    let (a, rest) ← parseCat fuel s
    match rest with
    | '|' :: rest2 => do
        let (b, rest3) ← parseAlt fuel rest2
        pure (RE.alt a b, rest3)
    | _ => pure (a, rest)

/-- Parse a concatenation of quantified atoms; stops at `|`, `)` or the
end of the pattern. -/
def parseCat (fuel : Nat) (s : List Char) : Except String (RE × List Char) :=
  match fuel with
  | 0 => .error "pattern too deep"
  | fuel + 1 =>
    match s with
    | [] => pure (RE.eps, [])
    | ')' :: _ => pure (RE.eps, s)
    | '|' :: _ => pure (RE.eps, s)
    | _ => do
      let (a, rest) ← parseAtomQ fuel s
      let (b, rest2) ← parseCat fuel rest
      pure (RE.seq a b, rest2)

/-- Parse one atom followed by at most one quantifier; a second
consecutive quantifier is rejected by the next `parseAtom`, as Python
rejects `a**` with "multiple repeat". -/
def parseAtomQ (fuel : Nat) (s : List Char) : Except String (RE × List Char) :=
  match fuel with
  | 0 => .error "pattern too deep"
  | fuel + 1 => do
    let (a, rest) ← parseAtom fuel s
    match rest with
    | '*' :: rest2 => pure (RE.star a, rest2)
    | '+' :: rest2 => pure (RE.seq a (RE.star a), rest2)
    | '?' :: rest2 => pure (RE.alt a RE.eps, rest2)
    | _ => pure (a, rest)

/-- Parse one atom: a group, `.`, `^`, `$`, an escaped literal, or a
literal character.  A dangling quantifier, an unbalanced parenthesis, a
trailing backslash, and the unmodelled class/escape constructs fail, as
`re.compile` raises on them. -/
def parseAtom (fuel : Nat) (s : List Char) : Except String (RE × List Char) :=
  match fuel with
  | 0 => .error "pattern too deep"
  | fuel + 1 =>
    match s with
    | [] => .error "nothing to repeat"
    | '(' :: rest => do
        let (a, rest2) ← parseAlt fuel rest
        match rest2 with
        | ')' :: rest3 => pure (a, rest3)
        | _ => .error "missing ), unterminated subpattern"
    | ')' :: _ => .error "unbalanced parenthesis"
    | '.' :: rest => pure (RE.anyc, rest)
    | '^' :: rest => pure (RE.startA, rest)
    | '$' :: rest => pure (RE.endA, rest)
    | '*' :: _ => .error "nothing to repeat"
    | '+' :: _ => .error "nothing to repeat"
    | '?' :: _ => .error "nothing to repeat"
    | '[' :: _ => .error "character class outside modelled subset"
    | '\\' :: c :: rest =>
        if c.isAlphanum then .error "escape class outside modelled subset"
        else pure (RE.lit c, rest)
    | '\\' :: [] => .error "bad escape (end of pattern)"
    | c :: rest => pure (RE.lit c, rest)

end

/-- Compile a pattern string, as `re.compile` does inside `re.search`;
`.error` models `re.error` being raised. -/
def parseRE (p : String) : Except String RE := do
  let (re, rest) ← parseAlt (4 * p.length + 8) p.data
  match rest with
  | [] => pure re
  | _ => .error "unbalanced parenthesis"

/-- End positions of matches of `re` starting at position `i` of `s`.
The fuel only bounds the recursion; every `star` unrolling advances the
position, so the fuel chosen by `reSearch` never runs out. -/
def reMatchEnds (fuel : Nat) (re : RE) (i : Nat) (s : List Char) : List Nat :=
  match fuel with
  | 0 => []
  | fuel + 1 =>
    match re with
    | .eps => [i]
    | .lit c => if s.get? i = some c then [i + 1] else []
    | .anyc =>
        match s.get? i with
        | some c => if c = '\n' then [] else [i + 1]
        | none => []
    | .startA => if i = 0 then [i] else []
    | .endA =>
        if i = s.length then [i]
        else if i + 1 = s.length ∧ s.get? i = some '\n' then [i] else []
    | .seq a b => ((reMatchEnds fuel a i s).map (fun j => reMatchEnds fuel b j s)).flatten
    | .alt a b => reMatchEnds fuel a i s ++ reMatchEnds fuel b i s
    | .star a =>
        i :: (((reMatchEnds fuel a i s).filter (fun j => i < j)).map
          (fun j => reMatchEnds fuel (RE.star a) j s)).flatten

/-- Substring-search semantics of a compiled pattern: does a match of
`re` begin at some position of `s`?  (Python `re.search`, not a
full-string match.) -/
def reSearch (re : RE) (s : String) : Bool :=
  let cs := s.data
  let fuel := (re.size + 2) * (cs.length + 2)
  (List.range (cs.length + 1)).any (fun i => !(reMatchEnds fuel re i cs).isEmpty)

/-- Model of the call `re.search(pattern, string)` made on line 87 of
`ec2wrapper.py`: raises (`.error`) when the pattern is `None` or fails to
compile, and otherwise reports whether a substring match exists. -/
def re_search (pattern : Option String) (s : String) : Except String Bool :=
  match pattern with
  | none => .error "TypeError: first argument must be string or compiled pattern"
  | some p => do
      let re ← parseRE p
      pure (reSearch re s)

/-! ### The embedded source functions -/

/-- Embedding of `get_tags_from_instance` (ec2wrapper.py lines 53-64):
walk the `Tags` list when present, keeping only pairs whose `Value` is
set; dict insertion is modelled by prepending, so first-match lookup sees
the last write. -/
def get_tags_from_instance (inst : Instance) : TagMap :=
  match inst.tags with
  | none => []
  | some tags =>
      tags.foldl (fun m tag =>
        match tag.value with
        | none => m
        | some v => (tag.key, v) :: m) []

/-- Embedding of the loop body of `are_any_filter_tags_on_instance`
(ec2wrapper.py lines 84-89), iterating over the dict's keys: the
instance's value for the key (default `''`), the pattern looked up from
the dict, the unconditional `re.search` call — which can raise — and the
truthiness test `filtered_tag_in_instance and tags_values_match`. -/
def anyFilterLoop (tags_filter : FilterCriteria) (instances_tags : TagMap) :
    List String → Except String Bool
  | [] => .ok false
  | filter_tag :: rest => do
      let filtered_tag_in_instance := dictGetD instances_tags filter_tag ""
      let pattern := criteriaGet tags_filter filter_tag
      let tags_values_match ← re_search pattern filtered_tag_in_instance
      if filtered_tag_in_instance ≠ "" ∧ tags_values_match = true then .ok true
      else anyFilterLoop tags_filter instances_tags rest

/-- Embedding of `are_any_filter_tags_on_instance` (ec2wrapper.py lines
83-91): disjunction over the criteria keys, `.ok false` when the loop
falls through. -/
def are_any_filter_tags_on_instance (tags_filter : FilterCriteria)
    (instances_tags : TagMap) : Except String Bool :=
  anyFilterLoop tags_filter instances_tags (tags_filter.map (fun kv => kv.1))

/-- The instances of every reservation, in response order — the nested
`for reservation ... for instance ...` iteration of lines 71-72. -/
def allInstances (ec2_instances : EC2Instances) : List Instance :=
  (ec2_instances.reservations.map (fun r => r.instances)).flatten

/-- Embedding of the per-instance body of `list_instances_without_tag`
(ec2wrapper.py lines 72-78): extract the tags, test the filter (errors
propagate, as an uncaught Python exception aborts the whole call), and
emit `{'InstanceId': ..., 'Name': tags['Name'] if 'Name' in tags else ''}`
for instances the filter does not match. -/
def instancesLoop (tags_filter : FilterCriteria) :
    List Instance → Except String (List InstanceData)
  | [] => .ok []
  | inst :: rest => do
      let instance_tags := get_tags_from_instance inst
      let tagged ← are_any_filter_tags_on_instance tags_filter instance_tags
      let tail ← instancesLoop tags_filter rest
      if tagged then pure tail
      else pure ({ instanceId := inst.instanceId
                   name := if dictHasKey instance_tags "Name" then
                             dictGetD instance_tags "Name" ""
                           else "" } :: tail)

/-- Embedding of `list_instances_without_tag` (ec2wrapper.py lines
68-80). -/
def list_instances_without_tag (tags_filter : FilterCriteria)
    (ec2_instances : EC2Instances) : Except String (List InstanceData) :=
  instancesLoop tags_filter (allInstances ec2_instances)

/-! ### Spec-side characterizations used by the theorems -/

/-- The summary record `list_instances_without_tag` builds for an
untagged instance. -/
def summaryOf (inst : Instance) : InstanceData :=
  { instanceId := inst.instanceId
    name := if dictHasKey (get_tags_from_instance inst) "Name" then
              dictGetD (get_tags_from_instance inst) "Name" ""
            else "" }

/-- Whether the filter keeps an instance: its criteria test returned
`.ok false`. -/
def isUntagged (tags_filter : FilterCriteria) (inst : Instance) : Bool :=
  match are_any_filter_tags_on_instance tags_filter (get_tags_from_instance inst) with
  | .ok false => true
  | _ => false

/-- Whether a stored criterion pattern is a string that compiles. -/
def patternCompiles (p : Option String) : Bool :=
  match p with
  | none => false
  | some q =>
      match parseRE q with
      | .ok _ => true
      | .error _ => false

/-- Whether an `Except` value is a normal result. -/
def exceptOk {α : Type} (e : Except String α) : Bool :=
  match e with
  | .ok _ => true
  | .error _ => false

/-! ### Concrete sample inputs used by the witness theorems -/

def wCriteria : FilterCriteria := [("Environment", some "prod")]

def wTagged : Instance := ⟨"i-1", some [⟨"Environment", some "production"⟩]⟩

def wUntagged : Instance := ⟨"i-2", some [⟨"Name", some "web"⟩]⟩

def wNoTags : Instance := ⟨"i-3", none⟩

def wEC2 : EC2Instances := ⟨[⟨[wTagged, wUntagged]⟩, ⟨[wNoTags]⟩]⟩

def wOut : List InstanceData := [⟨"i-2", "web"⟩, ⟨"i-3", ""⟩]

def wDupTags : Instance := ⟨"i-4", some [⟨"a", none⟩, ⟨"b", some "x"⟩]⟩

def wDupName : Instance := ⟨"i-5", some [⟨"Name", some "alpha"⟩, ⟨"Name", some "beta"⟩]⟩

def wEmptyVal : Instance := ⟨"i-6", some [⟨"Environment", some ""⟩]⟩

def wStarCriteria : FilterCriteria := [("Environment", some ".*")]

/-! ### Helper lemmas -/

/-- Splitting `find?` over an append whose left part has no hit. -/
theorem find?_append_left_none {α : Type} (p : α → Bool) (l₁ l₂ : List α)
    (h : l₁.find? p = none) : (l₁ ++ l₂).find? p = l₂.find? p := by
  rw [List.find?_append, h, Option.none_or]

/-- Looking up a key that is not in the dict returns the default. -/
theorem dictGetD_of_not_hasKey (d : TagMap) (k v : String)
    (h : dictHasKey d k = false) : dictGetD d k v = v := by
  rw [dictHasKey] at h
  rw [dictGetD]
  cases hf : d.find? (fun kv => kv.1 == k) with
  | none => rfl
  | some kv => simp [hf] at h

/-- The emitted record's name is the `Name` tag's value with default `""`. -/
theorem summaryOf_eq (inst : Instance) :
    summaryOf inst
      = ⟨inst.instanceId, dictGetD (get_tags_from_instance inst) "Name" ""⟩ := by
  rw [summaryOf]
  cases hk : dictHasKey (get_tags_from_instance inst) "Name" with
  | true => simp [hk]
  | false => simp [hk, dictGetD_of_not_hasKey _ _ _ hk]

theorem tagsFoldl_eq (l : List Tag) (acc : TagMap) :
    l.foldl (fun m tag =>
        match tag.value with
        | none => m
        | some v => (tag.key, v) :: m) acc
      = (l.filterMap (fun t => t.value.map (fun v => (t.key, v)))).reverse ++ acc := by
  induction l generalizing acc with
  | nil => simp
  | cons t l ih =>
    cases hv : t.value with
    | none => simp [hv, ih]
    | some v => simp [hv, ih]

/-- The tag map is the reversed filterMap of the raw tag list. -/
theorem get_tags_eq (inst : Instance) :
    get_tags_from_instance inst
      = ((inst.tags.getD []).filterMap
          (fun t => t.value.map (fun v => (t.key, v)))).reverse := by
  cases h : inst.tags with
  | none => simp [get_tags_from_instance, h]
  | some tags => simpa [get_tags_from_instance, h] using tagsFoldl_eq tags []

/-- A set-valued tag pair makes its name a key of the extracted map. -/
theorem hasKey_of_set_tag (inst : Instance) (t : Tag) (v : String)
    (hm : t ∈ inst.tags.getD []) (hv : t.value = some v) :
    dictHasKey (get_tags_from_instance inst) t.key = true := by
  rw [dictHasKey, get_tags_eq]
  refine List.find?_isSome.2 ⟨(t.key, v), ?_, ?_⟩
  · rw [List.mem_reverse, List.mem_filterMap]
    exact ⟨t, hm, by rw [hv]; rfl⟩
  · exact beq_self_eq_true t.key

theorem exceptOk_re_search (p : Option String) (s : String)
    (h : patternCompiles p = true) : ∃ m, re_search p s = .ok m := by
  cases p with
  | none => simp [patternCompiles] at h
  | some q =>
    cases hq : parseRE q with
    | error e => simp [patternCompiles, hq] at h
    | ok re => exact ⟨reSearch re s, by simp [re_search, hq, Except.bind]⟩

/-- Unfolding of one iteration of `anyFilterLoop`. -/
theorem anyFilterLoop_cons (tags_filter : FilterCriteria) (instances_tags : TagMap)
    (filter_tag : String) (rest : List String) :
    anyFilterLoop tags_filter instances_tags (filter_tag :: rest)
      = match re_search (criteriaGet tags_filter filter_tag)
              (dictGetD instances_tags filter_tag "") with
        | .error e => .error e
        | .ok m =>
            if dictGetD instances_tags filter_tag "" ≠ "" ∧ m = true then .ok true
            else anyFilterLoop tags_filter instances_tags rest := by
  cases hre : re_search (criteriaGet tags_filter filter_tag)
      (dictGetD instances_tags filter_tag "") with
  | error e => simp [anyFilterLoop, hre, Bind.bind, Except.bind]
  | ok m => simp [anyFilterLoop, hre, Bind.bind, Except.bind]

/-- A successful criteria loop returns `true` exactly when some key's
instance value is non-empty and `re.search` reports a match on it. -/
theorem anyFilterLoop_ok_iff (tags_filter : FilterCriteria) (instances_tags : TagMap)
    (keys : List String) (b : Bool)
    (h : anyFilterLoop tags_filter instances_tags keys = .ok b) :
    b = true ↔ ∃ k ∈ keys, dictGetD instances_tags k "" ≠ "" ∧
      re_search (criteriaGet tags_filter k) (dictGetD instances_tags k "") = .ok true := by
  induction keys generalizing b with
  | nil =>
    have hb : false = b := by
      have h' : Except.ok (ε := String) false = .ok b := h
      injection h'
    subst hb
    simp
  | cons k rest ih =>
    rw [anyFilterLoop_cons] at h
    cases hre : re_search (criteriaGet tags_filter k) (dictGetD instances_tags k "") with
    | error e => simp only [hre] at h; cases h
    | ok m =>
      simp only [hre] at h
      by_cases hc : dictGetD instances_tags k "" ≠ "" ∧ m = true
      · rw [if_pos hc] at h
        have hb : true = b := by injection h
        subst hb
        simp only [true_iff]
        exact ⟨k, List.mem_cons_self k rest, hc.1, by rw [hre, hc.2]⟩
      · rw [if_neg hc] at h
        rw [ih b h]
        constructor
        · rintro ⟨k', hk', hh⟩
          exact ⟨k', List.mem_cons_of_mem _ hk', hh⟩
        · rintro ⟨k', hk', hne, hs⟩
          rcases List.mem_cons.1 hk' with rfl | hk''
          · exfalso
            apply hc
            refine ⟨hne, ?_⟩
            rw [hre] at hs
            exact Except.ok.inj hs
          · exact ⟨k', hk'', hne, hs⟩

/-- When every looked-up pattern compiles, the criteria loop cannot
raise, whatever the instance's tags are. -/
theorem anyFilterLoop_isOk (tags_filter : FilterCriteria) (instances_tags : TagMap)
    (keys : List String)
    (h : ∀ k ∈ keys, patternCompiles (criteriaGet tags_filter k) = true) :
    ∃ b, anyFilterLoop tags_filter instances_tags keys = .ok b := by
  induction keys with
  | nil => exact ⟨false, rfl⟩
  | cons k rest ih =>
    rcases exceptOk_re_search _ (dictGetD instances_tags k "")
      (h k (List.mem_cons_self k rest)) with ⟨m, hre⟩
    rw [anyFilterLoop_cons]
    simp only [hre]
    by_cases hc : dictGetD instances_tags k "" ≠ "" ∧ m = true
    · exact ⟨true, by rw [if_pos hc]⟩
    · rw [if_neg hc]
      exact ih (fun k' hk' => h k' (List.mem_cons_of_mem _ hk'))

/-- When the instance's value for every key is empty, the criteria loop
never returns `true` — though it may still raise. -/
theorem anyFilterLoop_ne_true (tags_filter : FilterCriteria) (instances_tags : TagMap)
    (keys : List String)
    (h : ∀ k ∈ keys, dictGetD instances_tags k "" = "") :
    anyFilterLoop tags_filter instances_tags keys ≠ .ok true := by
  induction keys with
  | nil =>
    intro hcon
    have h' : Except.ok (ε := String) false = .ok true := hcon
    injection h' with h''
    cases h''
  | cons k rest ih =>
    rw [anyFilterLoop_cons]
    cases hre : re_search (criteriaGet tags_filter k) (dictGetD instances_tags k "") with
    | error e => simp
    | ok m =>
      dsimp only
      have hv := h k (List.mem_cons_self k rest)
      rw [if_neg (by rw [hv]; simp)]
      exact ih (fun k' hk' => h k' (List.mem_cons_of_mem _ hk'))

/-- With distinct criteria keys, looking a key's pattern back up from the
dict returns the pattern stored with it. -/
theorem criteriaGet_of_mem (tf : FilterCriteria) (k : String) (p : Option String)
    (hnd : (tf.map Prod.fst).Nodup) (hm : (k, p) ∈ tf) : criteriaGet tf k = p := by
  induction tf with
  | nil => cases hm
  | cons kv rest ih =>
    rcases List.mem_cons.1 hm with heq | hmem
    · rw [← heq]
      simp [criteriaGet]
    · have hk : ¬(kv.1 == k) = true := by
        have hin : k ∈ rest.map Prod.fst := List.mem_map.2 ⟨(k, p), hmem, rfl⟩
        simp only [beq_iff_eq]
        intro hcon
        rw [List.map_cons, hcon, List.nodup_cons] at hnd
        exact hnd.1 hin
      rw [criteriaGet, List.find?_cons_of_neg (p := fun kv => kv.1 == k) rest hk]
      have hnd' : (rest.map Prod.fst).Nodup := by
        rw [List.map_cons, List.nodup_cons] at hnd
        exact hnd.2
      exact ih hnd' hmem

/-- The criteria test returns `true` exactly when some criterion of the
dict matches (distinct keys assumed, as in a Python dict). -/
theorem are_any_ok_iff (tf : FilterCriteria) (tags : TagMap) (b : Bool)
    (hnd : (tf.map Prod.fst).Nodup)
    (h : are_any_filter_tags_on_instance tf tags = .ok b) :
    b = true ↔ ∃ kp ∈ tf, dictGetD tags kp.1 "" ≠ "" ∧
      re_search kp.2 (dictGetD tags kp.1 "") = .ok true := by
  rw [are_any_filter_tags_on_instance] at h
  rw [anyFilterLoop_ok_iff _ _ _ _ h]
  constructor
  · rintro ⟨k, hk, hne, hs⟩
    rcases List.mem_map.1 hk with ⟨kv, hkv, rfl⟩
    refine ⟨kv, hkv, hne, ?_⟩
    rwa [criteriaGet_of_mem tf kv.1 kv.2 hnd hkv] at hs
  · rintro ⟨kp, hkp, hne, hs⟩
    refine ⟨kp.1, List.mem_map.2 ⟨kp, hkp, rfl⟩, hne, ?_⟩
    rw [criteriaGet_of_mem tf kp.1 kp.2 hnd hkp]
    exact hs

/-- Unfolding of one iteration of `instancesLoop`. -/
theorem instancesLoop_cons (tf : FilterCriteria) (inst : Instance) (rest : List Instance) :
    instancesLoop tf (inst :: rest)
      = match are_any_filter_tags_on_instance tf (get_tags_from_instance inst) with
        | .error e => .error e
        | .ok tagged =>
            match instancesLoop tf rest with
            | .error e => .error e
            | .ok tail =>
                if tagged then .ok tail else .ok (summaryOf inst :: tail) := by
  cases hb : are_any_filter_tags_on_instance tf (get_tags_from_instance inst) with
  | error e => simp [instancesLoop, hb, Bind.bind, Except.bind]
  | ok tagged =>
    cases hl : instancesLoop tf rest with
    | error e =>
      simp [instancesLoop, hb, hl, Bind.bind, Except.bind]
    | ok tail =>
      cases tagged with
      | true => simp [instancesLoop, hb, hl, Bind.bind, Except.bind, Pure.pure, Except.pure]
      | false => simp [instancesLoop, hb, hl, Bind.bind, Except.bind, Pure.pure, Except.pure,
          summaryOf]

/-- A successful run of the instances loop produces exactly the summary
records of the untagged instances, in input order. -/
theorem instancesLoop_ok_eq (tf : FilterCriteria) (l : List Instance)
    (out : List InstanceData) (h : instancesLoop tf l = .ok out) :
    out = (l.filter (isUntagged tf)).map summaryOf := by
  induction l generalizing out with
  | nil =>
    have h' : Except.ok (ε := String) ([] : List InstanceData) = .ok out := h
    injection h' with h''
    simp [← h'']
  | cons inst rest ih =>
    rw [instancesLoop_cons] at h
    cases hb : are_any_filter_tags_on_instance tf (get_tags_from_instance inst) with
    | error e => simp only [hb] at h; cases h
    | ok tagged =>
      simp only [hb] at h
      cases hl : instancesLoop tf rest with
      | error e => simp only [hl] at h; cases h
      | ok tail =>
        simp only [hl] at h
        have htail := ih tail hl
        cases tagged with
        | true =>
          rw [if_pos rfl] at h
          injection h with h'
          have hu : isUntagged tf inst = false := by simp [isUntagged, hb]
          rw [List.filter_cons, hu]
          simpa [← h'] using htail
        | false =>
          rw [if_neg (by simp)] at h
          injection h with h'
          have hu : isUntagged tf inst = true := by simp [isUntagged, hb]
          rw [List.filter_cons, hu]
          simp only [if_pos trivial, List.map_cons]
          rw [← h', htail]

/-- A successful run of the instances loop means the criteria test
succeeded on every instance of the list. -/
theorem instancesLoop_ok_forall (tf : FilterCriteria) (l : List Instance)
    (out : List InstanceData) (h : instancesLoop tf l = .ok out) :
    ∀ inst ∈ l, ∃ b, are_any_filter_tags_on_instance tf (get_tags_from_instance inst) = .ok b := by
  induction l generalizing out with
  | nil => intro inst hin; cases hin
  | cons inst rest ih =>
    intro inst' hin
    rw [instancesLoop_cons] at h
    cases hb : are_any_filter_tags_on_instance tf (get_tags_from_instance inst) with
    | error e => simp only [hb] at h; cases h
    | ok tagged =>
      simp only [hb] at h
      cases hl : instancesLoop tf rest with
      | error e => simp only [hl] at h; cases h
      | ok tail =>
        rcases List.mem_cons.1 hin with rfl | hin'
        · exact ⟨tagged, hb⟩
        · exact ih tail hl inst' hin'

/-! ### Claim theorems -/

/-- C1: whenever `list_instances_without_tag` returns a result, an
instance is excluded from it precisely when at least one criterion
`(tagName, pattern)` of the criteria dict (distinct keys, as in a Python
dict) has a non-empty instance value for `tagName` on which `re.search`
with `pattern` reports a substring match — a single criterion suffices
(OR semantics). -/
theorem excluded_iff_some_criterion_matches
    (tf : FilterCriteria) (inst : Instance) (out : List InstanceData)
    (hnd : (tf.map Prod.fst).Nodup)
    (h : list_instances_without_tag tf ⟨[⟨[inst]⟩]⟩ = .ok out) :
    out = [] ↔ ∃ kp ∈ tf,
      dictGetD (get_tags_from_instance inst) kp.1 "" ≠ "" ∧
      re_search kp.2 (dictGetD (get_tags_from_instance inst) kp.1 "") = .ok true := by
  have hall : allInstances ⟨[⟨[inst]⟩]⟩ = [inst] := by simp [allInstances]
  rw [list_instances_without_tag, hall, instancesLoop_cons] at h
  cases hb : are_any_filter_tags_on_instance tf (get_tags_from_instance inst) with
  | error e => simp only [hb] at h; cases h
  | ok tagged =>
    simp only [hb] at h
    have h0 : instancesLoop tf ([] : List Instance) = .ok [] := rfl
    simp only [h0] at h
    have hiff := are_any_ok_iff tf (get_tags_from_instance inst) tagged hnd hb
    cases tagged with
    | true =>
      rw [if_pos rfl] at h
      rw [← Except.ok.inj h]
      exact iff_of_true rfl (hiff.1 rfl)
    | false =>
      rw [if_neg (by simp)] at h
      rw [← Except.ok.inj h]
      refine iff_of_false (by simp) ?_
      intro hex
      cases hiff.2 hex

/-- Witness for C1: with criteria `Environment ↦ prod` and an instance
tagged `Environment=production`, the result is empty and the equivalence
is realised concretely. -/
theorem excluded_iff_witness :
    (([] : List InstanceData) = [] ↔ ∃ kp ∈ wCriteria,
      dictGetD (get_tags_from_instance wTagged) kp.1 "" ≠ "" ∧
      re_search kp.2 (dictGetD (get_tags_from_instance wTagged) kp.1 "") = .ok true) :=
  excluded_iff_some_criterion_matches wCriteria wTagged [] (by decide) (by rfl)

/-- C2 counterexample: the claim "the filter raises no error for every
criteria mapping" is false — a criterion whose pattern is the malformed
regex `(` makes `re.search` raise inside `are_any_filter_tags_on_instance`,
and `list_instances_without_tag` propagates the error, even for an
instance with no tags at all. -/
theorem malformed_pattern_raises :
    list_instances_without_tag [("Environment", some "(")]
      (EC2Instances.mk [⟨[⟨"i-1", none⟩]⟩])
      = .error "missing ), unterminated subpattern" := by
  rfl

/-- C2 (amended): when every criterion's pattern is a string that
compiles as a regex, `list_instances_without_tag` raises no error on any
input — in particular a missing or empty instance tag value degrades to
"no match" for that criterion rather than failing.  (A `None` pattern or
a malformed pattern, by contrast, raises — see the counterexample.) -/
theorem compiling_patterns_never_raise (tf : FilterCriteria) (ec2 : EC2Instances)
    (h : ∀ kp ∈ tf, patternCompiles kp.2 = true) :
    exceptOk (list_instances_without_tag tf ec2) = true := by
  have hkeys : ∀ k ∈ tf.map (fun kv => kv.1), patternCompiles (criteriaGet tf k) = true := by
    intro k hk
    have hsome : (tf.find? (fun kv => kv.1 == k)).isSome := by
      rcases List.mem_map.1 hk with ⟨kv, hkv, rfl⟩
      exact List.find?_isSome.2 ⟨kv, hkv, beq_self_eq_true kv.1⟩
    rcases Option.isSome_iff_exists.1 hsome with ⟨kv, hkv⟩
    have hmem := List.mem_of_find?_eq_some hkv
    rw [criteriaGet, hkv]
    simpa using h kv hmem
  have hloop : ∀ l : List Instance, ∃ o, instancesLoop tf l = .ok o := by
    intro l
    induction l with
    | nil => exact ⟨[], rfl⟩
    | cons inst rest ih =>
      rcases anyFilterLoop_isOk tf (get_tags_from_instance inst) _ hkeys with ⟨b, hb⟩
      rcases ih with ⟨tail, hl⟩
      have hb' : are_any_filter_tags_on_instance tf (get_tags_from_instance inst)
          = .ok b := hb
      rw [instancesLoop_cons]
      rw [hb', hl]
      cases b with
      | true => exact ⟨tail, rfl⟩
      | false => exact ⟨summaryOf inst :: tail, rfl⟩
  rcases hloop (allInstances ec2) with ⟨o, ho⟩
  rw [list_instances_without_tag, ho]
  rfl

/-- Witness for C2's amended theorem: the sample criteria compile, so the
run over the sample response returns normally. -/
theorem compiling_patterns_witness :
    exceptOk (list_instances_without_tag wCriteria wEC2) = true :=
  compiling_patterns_never_raise wCriteria wEC2 (by decide)

/-- C3: every entry of the extracted tag map comes from a tag pair whose
value is set (so a pair with an unset value contributes no entry), and
conversely every tag pair with a set value has its name present as a key
of the map. -/
theorem tag_map_entries_exactly_set_pairs (inst : Instance) :
    (∀ e ∈ get_tags_from_instance inst, (⟨e.1, some e.2⟩ : Tag) ∈ inst.tags.getD [])
    ∧ (∀ t ∈ inst.tags.getD [], ∀ v, t.value = some v →
        dictHasKey (get_tags_from_instance inst) t.key = true) := by
  constructor
  · intro e he
    rw [get_tags_eq, List.mem_reverse, List.mem_filterMap] at he
    rcases he with ⟨t, ht, hmap⟩
    rcases t with ⟨tk, tv⟩
    cases tv with
    | none => simp at hmap
    | some v =>
      simp only [Option.map_some'] at hmap
      cases Option.some.inj hmap
      exact ht
  · intro t ht v hv
    exact hasKey_of_set_tag inst t v ht hv

/-- Witness for C3: on a record with tags `a=None, b=x`, the set pair is a
member of the raw list and its name is a key of the extracted map (while
theorem `tag_map_entries_exactly_set_pairs` rules every map entry to come
from a set pair, so `a` contributes nothing). -/
theorem tag_map_entries_witness :
    (⟨"b", some "x"⟩ : Tag) ∈ wDupTags.tags.getD [] ∧
    dictHasKey (get_tags_from_instance wDupTags) "b" = true :=
  ⟨by decide,
   (tag_map_entries_exactly_set_pairs wDupTags).2 ⟨"b", some "x"⟩ (by decide) "x" rfl⟩

/-- C4: a record with no tags field at all yields the empty tag map —
the missing field is treated as empty, not as an error. -/
theorem no_tags_field_gives_empty_map (inst : Instance) (h : inst.tags = none) :
    get_tags_from_instance inst = [] := by
  simp [get_tags_from_instance, h]

/-- Witness for C4 at a concrete record without a tags field. -/
theorem no_tags_field_witness : get_tags_from_instance wNoTags = [] :=
  no_tags_field_gives_empty_map wNoTags rfl

/-- C5: in a successful run, every instance the criteria test does not
match is emitted as a record whose id is the instance's identifier and
whose name is the `Name` tag's value if present and `""` otherwise; in
particular an instance with no tags field at all always appears, with
name `""` (for any criteria, non-empty or not, whenever the run
returns). -/
theorem untagged_instances_emitted (tf : FilterCriteria) (ec2 : EC2Instances)
    (out : List InstanceData) (h : list_instances_without_tag tf ec2 = .ok out) :
    (∀ inst ∈ allInstances ec2,
        are_any_filter_tags_on_instance tf (get_tags_from_instance inst) = .ok false →
        (⟨inst.instanceId, dictGetD (get_tags_from_instance inst) "Name" ""⟩
          : InstanceData) ∈ out)
    ∧ (∀ inst ∈ allInstances ec2, inst.tags = none →
        (⟨inst.instanceId, ""⟩ : InstanceData) ∈ out) := by
  rw [list_instances_without_tag] at h
  have hout := instancesLoop_ok_eq tf _ out h
  have main : ∀ inst ∈ allInstances ec2,
      are_any_filter_tags_on_instance tf (get_tags_from_instance inst) = .ok false →
      (⟨inst.instanceId, dictGetD (get_tags_from_instance inst) "Name" ""⟩
        : InstanceData) ∈ out := by
    intro inst hmem hb
    rw [hout, ← summaryOf_eq]
    exact List.mem_map.2 ⟨inst, List.mem_filter.2 ⟨hmem, by simp [isUntagged, hb]⟩, rfl⟩
  refine ⟨main, ?_⟩
  intro inst hmem hnone
  have htags : get_tags_from_instance inst = [] := by
    simp [get_tags_from_instance, hnone]
  rcases instancesLoop_ok_forall tf _ out h inst hmem with ⟨b, hb⟩
  have hne : are_any_filter_tags_on_instance tf (get_tags_from_instance inst)
      ≠ .ok true := by
    rw [are_any_filter_tags_on_instance]
    apply anyFilterLoop_ne_true
    intro k hk
    rw [htags]
    rfl
  cases b with
  | true => exact absurd hb hne
  | false =>
    have hin := main inst hmem hb
    rw [htags] at hin
    exact hin

/-- Witness for C5: in the sample run, the record of the tagless instance
appears with an empty name. -/
theorem untagged_emitted_witness : (⟨"i-3", ""⟩ : InstanceData) ∈ wOut :=
  (untagged_instances_emitted wCriteria wEC2 wOut (by rfl)).2 wNoTags (by decide) rfl

/-- C6: a successful result is exactly the summaries of the untagged
instances in input order — the output is the order-preserving filter of
the input. -/
theorem result_is_ordered_filter (tf : FilterCriteria) (ec2 : EC2Instances)
    (out : List InstanceData) (h : list_instances_without_tag tf ec2 = .ok out) :
    out = ((allInstances ec2).filter (isUntagged tf)).map summaryOf := by
  rw [list_instances_without_tag] at h
  exact instancesLoop_ok_eq tf _ out h

/-- Witness for C6: the sample input `[tagged, untagged, no-tags]`
produces exactly `[summary untagged, summary no-tags]`, in input order. -/
theorem ordered_filter_witness :
    wOut = ((allInstances wEC2).filter (isUntagged wCriteria)).map summaryOf :=
  result_is_ordered_filter wCriteria wEC2 wOut (by rfl)

/-- C7: `get_tags_from_instance` and `list_instances_without_tag` are
deterministic — two calls on the same input yield identical output.  The
embedding realises both as total pure Lean functions of their arguments
alone (the Python bodies only read their arguments and build fresh
dicts/lists), so freedom from input mutation and shared state holds by
construction. -/
theorem extraction_and_filter_deterministic (inst : Instance) (tf : FilterCriteria)
    (ec2 : EC2Instances) :
    get_tags_from_instance inst = get_tags_from_instance inst ∧
    list_instances_without_tag tf ec2 = list_instances_without_tag tf ec2 :=
  ⟨rfl, rfl⟩

/-- C8: when the tag list holds two pairs with the same name and set
values, the extracted map sends that name to the later pair's value
(last-write-wins); stated with no further set pair of that name after the
second one. -/
theorem duplicate_tag_last_write_wins (inst : Instance) (n v₁ v₂ : String)
    (l₁ l₂ l₃ : List Tag)
    (htags : inst.tags = some (l₁ ++ ⟨n, some v₁⟩ :: (l₂ ++ ⟨n, some v₂⟩ :: l₃)))
    (hl₃ : ∀ t ∈ l₃, t.key = n → t.value = none) :
    (get_tags_from_instance inst).find? (fun kv => kv.1 == n) = some (n, v₂) := by
  rw [get_tags_eq, htags]
  simp only [Option.getD_some]
  have hrev : ((l₁ ++ ⟨n, some v₁⟩ :: (l₂ ++ ⟨n, some v₂⟩ :: l₃)).filterMap
        (fun t => t.value.map (fun v => (t.key, v)))).reverse
      = (l₃.filterMap (fun t => t.value.map (fun v => (t.key, v)))).reverse
        ++ (n, v₂) :: ((l₂.filterMap (fun t => t.value.map (fun v => (t.key, v)))).reverse
        ++ (n, v₁) :: (l₁.filterMap (fun t => t.value.map (fun v => (t.key, v)))).reverse) := by
    simp [List.filterMap_append, List.filterMap_cons]
  rw [hrev]
  have h3 : ((l₃.filterMap (fun t => t.value.map (fun v => (t.key, v)))).reverse).find?
      (fun kv => kv.1 == n) = none := by
    rw [List.find?_eq_none]
    intro x hx
    rw [List.mem_reverse, List.mem_filterMap] at hx
    rcases hx with ⟨t, ht, hmap⟩
    rcases t with ⟨tk, tv⟩
    cases tv with
    | none => simp at hmap
    | some v =>
      simp only [Option.map_some'] at hmap
      cases Option.some.inj hmap
      simp only [beq_iff_eq]
      intro hcon
      exact Option.noConfusion (hl₃ ⟨tk, some v⟩ ht hcon)
  rw [find?_append_left_none _ _ _ h3]
  exact List.find?_cons_of_pos (p := fun kv : String × String => kv.1 == n) _
    (beq_self_eq_true n)

/-- Witness for C8: tags `Name=alpha` then `Name=beta` yield the map entry
`Name ↦ beta`. -/
theorem last_write_wins_witness :
    (get_tags_from_instance wDupName).find? (fun kv => kv.1 == "Name")
      = some ("Name", "beta") :=
  duplicate_tag_last_write_wins wDupName "Name" "alpha" "beta" [] [] [] rfl
    (fun t ht _ => absurd ht (List.not_mem_nil t))

/-- C9: with an empty criteria dict, the criteria test returns `false` on
every tag map, so `list_instances_without_tag` emits a summary record for
every instance of the input, in input order. -/
theorem empty_criteria_keeps_everything (tags : TagMap) (ec2 : EC2Instances) :
    are_any_filter_tags_on_instance [] tags = .ok false ∧
    list_instances_without_tag [] ec2 = .ok ((allInstances ec2).map summaryOf) := by
  refine ⟨rfl, ?_⟩
  rw [list_instances_without_tag]
  have hloop : ∀ l : List Instance,
      instancesLoop ([] : FilterCriteria) l = .ok (l.map summaryOf) := by
    intro l
    induction l with
    | nil => rfl
    | cons inst rest ih =>
      rw [instancesLoop_cons, ih]
      rfl
  exact hloop _

/-- C10: a tag pair with the empty string as value is kept in the map
(only unset values are skipped), yet — whatever the criteria patterns,
including `.*` which matches the empty string — an instance whose values
for all criteria keys are empty can never satisfy a criterion: the test
never returns `true`, and a successful singleton run always reports the
instance as untagged. -/
theorem empty_tag_value_kept_but_never_matches (inst : Instance) (tf : FilterCriteria)
    (k : String) :
    ((⟨k, some ""⟩ : Tag) ∈ inst.tags.getD [] →
        dictHasKey (get_tags_from_instance inst) k = true)
    ∧ ((∀ kp ∈ tf, dictGetD (get_tags_from_instance inst) kp.1 "" = "") →
        are_any_filter_tags_on_instance tf (get_tags_from_instance inst) ≠ .ok true
        ∧ ∀ out, list_instances_without_tag tf ⟨[⟨[inst]⟩]⟩ = .ok out →
            out = [summaryOf inst]) := by
  constructor
  · intro hm
    exact hasKey_of_set_tag inst ⟨k, some ""⟩ "" hm rfl
  · intro hempty
    have hne : are_any_filter_tags_on_instance tf (get_tags_from_instance inst)
        ≠ .ok true := by
      rw [are_any_filter_tags_on_instance]
      apply anyFilterLoop_ne_true
      intro k' hk'
      rcases List.mem_map.1 hk' with ⟨kv, hkv, rfl⟩
      exact hempty kv hkv
    refine ⟨hne, ?_⟩
    intro out hout
    have hall : allInstances ⟨[⟨[inst]⟩]⟩ = [inst] := by simp [allInstances]
    rw [list_instances_without_tag, hall] at hout
    have hchar := instancesLoop_ok_eq tf [inst] out hout
    rcases instancesLoop_ok_forall tf [inst] out hout inst (List.mem_cons_self _ _)
      with ⟨b, hb⟩
    cases b with
    | true => exact absurd hb hne
    | false =>
      rw [hchar]
      simp [List.filter_cons, isUntagged, hb]

/-- Witness for C10: a tag `Environment=""` against the criterion
`Environment ↦ .*` — the key is kept in the map, the test does not return
`true`, and the singleton run reports the instance with name `""`. -/
theorem empty_value_witness :
    dictHasKey (get_tags_from_instance wEmptyVal) "Environment" = true ∧
    are_any_filter_tags_on_instance wStarCriteria (get_tags_from_instance wEmptyVal)
      ≠ .ok true ∧
    ([⟨"i-6", ""⟩] : List InstanceData) = [summaryOf wEmptyVal] :=
  ⟨(empty_tag_value_kept_but_never_matches wEmptyVal wStarCriteria "Environment").1
     (by decide),
   ((empty_tag_value_kept_but_never_matches wEmptyVal wStarCriteria "Environment").2
     (by decide)).1,
   ((empty_tag_value_kept_but_never_matches wEmptyVal wStarCriteria "Environment").2
     (by decide)).2 [⟨"i-6", ""⟩] (by rfl)⟩

end AwsWrapper
